import Mathlib

/-!
Verification of the LED rendering engine of mauros-ambilight-control.

This file shallowly embeds the parts of `ambilight.py` and
`dx_light_control.py` that the spec's claims are about: the protocol
encoder (`build_and_send` / `DXLightController._build_buffer`), the
effect generators, the temporal smoother, the zone sampler, the crop
computation (`calc_region` and the manual crop sliders), and the frame
counter behaviour of the engine's send paths.

Python integers are modelled as `Nat` (with explicit `% 256` where the
code masks with `& 0xFF`), Python floats as `Rat`, Python `int()`
(truncation toward zero) as `pyTrunc`, and Python `x % 1.0` as
`pyMod1`.  Lists model both Python lists and the numpy frame arrays
(the latter as an index function together with its dimensions).
-/

/-- An LED color: an (R, G, B) triple of channel values. -/
abbrev Color := ℕ × ℕ × ℕ

/-- Each channel of the color fits in one byte. -/
def isByte (c : Color) : Prop := c.1 ≤ 255 ∧ c.2.1 ≤ 255 ∧ c.2.2 ≤ 255

instance (c : Color) : Decidable (isByte c) := by unfold isByte; infer_instance

/-- Python `int()` applied to a float: truncation toward zero, modelled on `Rat`. -/
def pyTrunc (q : ℚ) : ℤ := if q < 0 then -(Int.floor (-q)) else Int.floor q

/-- Python `x % 1.0` for a float `x`: the fractional part, in `[0, 1)`. -/
def pyMod1 (x : ℚ) : ℚ := x - Int.floor x

namespace Ambilight

/-! ### Protocol encoder of `ambilight.py` (`build_and_send`, lines 181-205)

`build_and_send` fills a 192-byte buffer and sends it as three 64-byte
chunks, each prefixed with a `0x00` report-id byte.  We model the
buffer construction as a pure function of the LED list, the frame
counter and the mirror flag, and the chunking separately. -/

/-- Source list for the left zone group (`left_src` in `build_and_send`):
`leds[24:36][::-1]` when mirrored, else `leds[0:12]`. -/
def left_src (leds : List Color) (mirror : Bool) : List Color :=
  if mirror then ((leds.drop 24).take 12).reverse else leds.take 12

/-- Source list for the right zone group (`right_src`):
`leds[0:12][::-1]` when mirrored, else `leds[24:36]`. -/
def right_src (leds : List Color) (mirror : Bool) : List Color :=
  if mirror then (leds.take 12).reverse else (leds.drop 24).take 12

/-- Source list for the top zone group (`top_src`):
`reversed(leds[12:24])` when mirrored, else `leds[12:24]`. -/
def top_src (leds : List Color) (mirror : Bool) : List Color :=
  if mirror then ((leds.drop 12).take 12).reverse else (leds.drop 12).take 12

/-- The assembled 36-entry order written to the wire:
`left + top_src + list(right_src)` where
`left = [left_src[11-i] for i in range(N)]`. -/
def assembled (leds : List Color) (mirror : Bool) : List Color :=
  (List.range 12).map (fun i => (left_src leds mirror).getD (11 - i) (0, 0, 0))
    ++ top_src leds mirror ++ right_src leds mirror

/-- The five bytes written for one LED inside a block: two sequential
counter bytes (each masked `& 0xFF`) followed by the three channels. -/
def ledEntryBytes (c : ℕ) (col : Color) : List ℕ :=
  [c % 256, (c + 1) % 256, col.1, col.2.1, col.2.2]

/-- The bytes written by the inner loop `for i in range(12)` of
`build_and_send`, generalized over the LED count `n`: starting at
assembled index `s` with running counter value `c`. -/
def blockBytes (a : List Color) : ℕ → ℕ → ℕ → List ℕ
  | _, _, 0 => []
  | s, c, n + 1 => ledEntryBytes c (a.getD s (0, 0, 0)) ++ blockBytes a (s + 1) (c + 2) n

/-- The full 192-byte buffer built by `build_and_send`: the 7-byte
header with the counter at byte 4, the three channels of
`assembled[0]`, then three 12-LED blocks starting at assembled indices
1, 12 and 24 with the running LED counter at 1, 25 and 49, and two
trailing zero bytes left over from `bytearray(192)`. -/
def build_buffer (leds : List Color) (cnt : ℕ) (mirror : Bool) : List ℕ :=
  let a := assembled leds mirror
  let a0 := a.getD 0 (0, 0, 0)
  [0x53, 0x43, 0x00, 0xB1, cnt % 256, 0x80, 0x01]
    ++ ([a0.1, a0.2.1, a0.2.2]
      ++ (blockBytes a 1 1 12 ++ (blockBytes a 12 25 12 ++ (blockBytes a 24 49 12
        ++ [0, 0]))))

/-- The slice `buf[i*64:(i+1)*64]` sent as chunk `i` (line 204). -/
def chunk (buf : List ℕ) (i : ℕ) : List ℕ :=
  (buf.drop (64 * i)).take 64

/-- One 65-byte transport frame: report id `0x00` followed by
`buf[i*64:(i+1)*64]` (line 204 of `ambilight.py`). -/
def chunkReport (buf : List ℕ) (i : ℕ) : List ℕ :=
  0x00 :: chunk buf i

end Ambilight

namespace DXLight

/-! ### Protocol encoder of `dx_light_control.py`
(`DXLightController._build_buffer`, lines 77-137, and the chunking of
`send`, lines 139-157). -/

/-- The five bytes `write_block` writes for one LED: two sequential
counter bytes and the three channels, all masked `& 0xFF`. -/
def dxLedEntryBytes (c : ℕ) (col : Color) : List ℕ :=
  [c % 256, (c + 1) % 256, col.1 % 256, col.2.1 % 256, col.2.2 % 256]

/-- The bytes written by `write_block(start_idx)`, generalized over the
LED count `n`, with `s` the start index into `all_leds` and `c` the
running `led_counter`. -/
def dxBlockBytes (a : List Color) : ℕ → ℕ → ℕ → List ℕ
  | _, _, 0 => []
  | s, c, n + 1 => dxLedEntryBytes c (a.getD s (0, 0, 0)) ++ dxBlockBytes a (s + 1) (c + 2) n

/-- The 192-byte buffer built by `_build_buffer` from the stored LED
state and counter, together with the updated counter
(`self.counter = (self.counter + 1) & 0xFF`).
`all_leds = list(reversed(leds[0:12])) + leds[12:24] + leds[24:36]`. -/
def build_buffer (leds : List Color) (counter : ℕ) : List ℕ × ℕ :=
  let all_leds := (leds.take 12).reverse ++ (leds.drop 12).take 12 ++ (leds.drop 24).take 12
  let a0 := all_leds.getD 0 (0, 0, 0)
  (([0x53, 0x43, 0x00, 0xB1, counter % 256, 0x80, 0x01]
      ++ ([a0.1 % 256, a0.2.1 % 256, a0.2.2 % 256]
        ++ (dxBlockBytes all_leds 1 1 12 ++ (dxBlockBytes all_leds 12 25 12
          ++ (dxBlockBytes all_leds 24 49 12 ++ [0, 0]))))),
   (counter + 1) % 256)

/-- One 65-byte transport frame of `DXLightController.send`: report id
`0x00` followed by `buf[i*64:(i+1)*64]`. -/
def chunkReport (buf : List ℕ) (i : ℕ) : List ℕ :=
  0x00 :: ((buf.drop (64 * i)).take 64)

end DXLight

namespace Ambilight

/-! ### Decoder for the wire format

A decoding function witnessing that the encoder is reversible: it
reads the 36 assembled colors back out of the three 64-byte chunks
(`assembled[0]` from bytes 7-9, `assembled[1..13)` from the first
block, `assembled[12..36)` from the second and third blocks) and then
undoes the assembly/mirroring permutation. -/

/-- Read assembled color `j` back from the 192-byte buffer.  For
`1 ≤ j < 12` the color bytes of block 1 entry `j-1` sit at offset
`10 + 5*(j-1) + 2 = 7 + 5*j`; for `12 ≤ j < 36` the color bytes of
block 2 or 3 sit at offset `10 + 5*j + 2 = 12 + 5*j`. -/
def decodeAssembled (buf : List ℕ) (j : ℕ) : Color :=
  if j = 0 then (buf.getD 7 0, buf.getD 8 0, buf.getD 9 0)
  else if j < 12 then (buf.getD (7 + 5 * j) 0, buf.getD (8 + 5 * j) 0, buf.getD (9 + 5 * j) 0)
  else (buf.getD (12 + 5 * j) 0, buf.getD (13 + 5 * j) 0, buf.getD (14 + 5 * j) 0)

/-- Decode the three 64-byte chunks back into the original 36-entry
LED list, undoing the mirroring permutation of `build_and_send`. -/
def decode (c0 c1 c2 : List ℕ) (mirror : Bool) : List Color :=
  let buf := c0 ++ c1 ++ c2
  let a := (List.range 36).map (decodeAssembled buf)
  if mirror then
    ((a.drop 24).take 12).reverse ++ ((a.drop 12).take 12).reverse ++ a.take 12
  else
    (a.take 12).reverse ++ (a.drop 12).take 12 ++ (a.drop 24).take 12

/-- The frame-level mirror transformation induced by the encoder's
mirror branch: swap the left and right zone groups with reversal and
reverse the top zones, so that encoding with the mirror flag equals
encoding the transformed frame without it. -/
def mirrorFrame (leds : List Color) : List Color :=
  ((leds.drop 24).take 12).reverse ++ ((leds.drop 12).take 12).reverse
    ++ (leds.take 12).reverse

/-! ### Effect generator `_gen_rainbow` (lines 290-298) -/

/-- The function `colorsys.hsv_to_rgb` from the Python standard library, on exact
rationals; `int()` is truncation toward zero and `i % 6` is Python's
nonnegative remainder. -/
def hsv_to_rgb (h s v : ℚ) : ℚ × ℚ × ℚ :=
  if s = 0 then (v, v, v)
  else
    let i : ℤ := pyTrunc (h * 6)
    let f : ℚ := h * 6 - i
    let p := v * (1 - s)
    let q := v * (1 - s * f)
    let t := v * (1 - s * (1 - f))
    let im := (i % 6).toNat
    if im = 0 then (v, t, p)
    else if im = 1 then (q, v, p)
    else if im = 2 then (p, v, t)
    else if im = 3 then (p, q, v)
    else if im = 4 then (t, p, v)
    else (v, p, q)

/-- The generator `LedEngine._gen_rainbow(t)`: 36 LEDs, LED `i` colored with hue
`(t * speed * 0.3 + i / 36.0) % 1.0` at full saturation and value,
scaled by `255 * bri`, where `speed = effect_speed / 50.0`. -/
def gen_rainbow (t effect_speed bri : ℚ) : List Color :=
  let speed := effect_speed / 50
  (List.range 36).map (fun (i : ℕ) =>
    let hue := pyMod1 (t * speed * (3 / 10) + (i : ℚ) / 36)
    let c := hsv_to_rgb hue 1 1
    ((pyTrunc (c.1 * 255 * bri)).toNat, (pyTrunc (c.2.1 * 255 * bri)).toNat,
      (pyTrunc (c.2.2 * 255 * bri)).toNat))

/-! ### Temporal smoother (`_loop`, lines 425-427) -/

/-- One blended channel: `int(c + (t - c) * f)` with `f = 1.0 - alpha`
already applied by the caller. -/
def blendChan (c t : ℕ) (f : ℚ) : ℕ :=
  (pyTrunc ((c : ℚ) + ((t : ℚ) - (c : ℚ)) * f)).toNat

/-- One blended color. -/
def blendColor (c t : Color) (f : ℚ) : Color :=
  (blendChan c.1 t.1 f, blendChan c.2.1 t.2.1 f, blendChan c.2.2 t.2.2 f)

/-- The temporal smoother of `_loop`:
`cur = [(int(c1+(t1-c1)*f), ...) for (c1,..),(t1,..) in zip(cur, leds)]`
with `f = 1.0 - alpha`. -/
def smoothFrame (cur leds : List Color) (alpha : ℚ) : List Color :=
  List.zipWith (fun c t => blendColor c t (1 - alpha)) cur leds

/-! ### Capture-mode tick (`_loop`, lines 380-433)

In a capture mode the loop sets `leds` to the freshly sampled frame
when acquisition succeeded and to `cur` — the previous tick's
smoothed output — when it failed (`else: leds = cur`, line 413); it
then smooths `cur` toward `leds` and keeps running regardless of the
acquisition outcome (only a send failure clears `self.running`). -/

structure TickResult where
  fed : List Color
  out : List Color
  running : Bool
  deriving DecidableEq

/-- One capture-mode tick: `acq` is the sampled LED list on successful
acquisition (`None` models `frame is None`), `sendOk` the outcome of
`build_and_send`. -/
def captureTick (cur : List Color) (acq : Option (List Color)) (alpha : ℚ)
    (sendOk : Bool) : TickResult :=
  let leds := match acq with
    | some sampled => sampled
    | none => cur
  { fed := leds, out := smoothFrame cur leds alpha, running := sendOk }

/-! ### Frame counter across send paths

`_loop` (lines 429-433) sends with `self.cnt` and increments it mod
256 only after a successful send; `LedEngine.stop` (line 282) and
`LedEngine.disconnect` (line 266) send an all-black frame with
`self.cnt` and do not increment it. -/

inductive SendEvent
  | loopTick
  | stopSend
  | disconnectSend
  deriving DecidableEq

/-- The counter byte placed in header byte 4 by one successful send,
and the engine's counter afterwards. -/
def sendStep (c : ℕ) : SendEvent → ℕ × ℕ
  | SendEvent.loopTick => (c % 256, (c + 1) % 256)
  | SendEvent.stopSend => (c % 256, c)
  | SendEvent.disconnectSend => (c % 256, c)

/-- The sequence of counter bytes produced by a sequence of successful
sends starting from counter value `c`. -/
def sendTrace (c : ℕ) : List SendEvent → List ℕ
  | [] => []
  | e :: es => (sendStep c e).1 :: sendTrace (sendStep c e).2 es

/-! ### Crop configuration (`calc_region`, lines 208-223, and the
manual crop sliders of `_build_ui` / `_on_aspect_change`) -/

/-- The preset computation `calc_region(mon_w, mon_h, aspect)`: the crop fractions
`(left, top, right, bottom)` for an aspect-ratio preset. -/
def calc_region (mon_w mon_h : ℚ) (aspect : Option (ℚ × ℚ)) : ℚ × ℚ × ℚ × ℚ :=
  match aspect with
  | none => (0, 0, 0, 0)
  | some (aw, ah) =>
    let target_ratio := aw / ah
    let mon_ratio := mon_w / mon_h
    if |target_ratio - mon_ratio| < 1 / 100 then (0, 0, 0, 0)
    else if target_ratio < mon_ratio then
      let content_w := mon_h * target_ratio
      let pct := (mon_w - content_w) / 2 / mon_w
      (pct, 0, pct, 0)
    else
      let content_h := mon_w / target_ratio
      let pct := (mon_h - content_h) / 2 / mon_h
      (0, pct, 0, pct)

/-- The crop delivered by the manual sliders (`_on_aspect_change`,
lines 785-786): each slider holds an integer percentage in `[0, 50]`
and the engine receives `(l/100, t/100, r/100, b/100)`. -/
def sliderCrop (l t r b : ℕ) : ℚ × ℚ × ℚ × ℚ :=
  ((l : ℚ) / 100, (t : ℚ) / 100, (r : ℚ) / 100, (b : ℚ) / 100)

/-! ### Zone sampler (`_sample_from_frame`, lines 315-363)

A numpy frame is modelled as its dimensions together with a total
index function; slicing composes index maps and never copies. -/

structure NpArr where
  rows : ℕ
  cols : ℕ
  pix : ℕ → ℕ → Color

/-- Length of the Python slice `[a:b:s]` of a sequence of length `n`
(for `0 ≤ a, b` and `s ≥ 1`). -/
def sliceLen (n a b s : ℕ) : ℕ := (min b n - a + (s - 1)) / s

/-- The 2-d strided slice `A[r0:r1:rs, c0:c1:cs]`. -/
def npSlice (A : NpArr) (r0 r1 rs c0 c1 cs : ℕ) : NpArr :=
  { rows := sliceLen A.rows r0 r1 rs
    cols := sliceLen A.cols c0 c1 cs
    pix := fun i j => A.pix (r0 + i * rs) (c0 + j * cs) }

/-- Per-channel sum of `img[r0:r1, c0:c1]` as exact rationals. -/
def npSum (img : NpArr) (r0 r1 c0 c1 : ℕ) : ℚ × ℚ × ℚ :=
  (∑ i ∈ Finset.range (r1 - r0), ∑ j ∈ Finset.range (c1 - c0),
      ((img.pix (r0 + i) (c0 + j)).1 : ℚ),
   ∑ i ∈ Finset.range (r1 - r0), ∑ j ∈ Finset.range (c1 - c0),
      ((img.pix (r0 + i) (c0 + j)).2.1 : ℚ),
   ∑ i ∈ Finset.range (r1 - r0), ∑ j ∈ Finset.range (c1 - c0),
      ((img.pix (r0 + i) (c0 + j)).2.2 : ℚ))

/-- Per-channel arithmetic mean of `img[r0:r1, c0:c1]` (numpy `mean`
over exact rationals; an empty range yields 0 by `Rat` division). -/
def npMean (img : NpArr) (r0 r1 c0 c1 : ℕ) : ℚ × ℚ × ℚ :=
  let s := npSum img r0 r1 c0 c1
  let cnt : ℚ := ((r1 - r0) * (c1 - c0) : ℕ)
  (s.1 / cnt, s.2.1 / cnt, s.2.2 / cnt)

/-- The triple `(int(m[0]*bri), int(m[1]*bri), int(m[2]*bri))` — the unclamped
scaling used in the degenerate `chunk < 1` branch. -/
def scaleColor (m : ℚ × ℚ × ℚ) (bri : ℚ) : Color :=
  ((pyTrunc (m.1 * bri)).toNat, (pyTrunc (m.2.1 * bri)).toNat, (pyTrunc (m.2.2 * bri)).toNat)

/-- The triple `(min(255, int(m[0]*bri)), ...)` — the clamped scaling used in the
vectorized branch. -/
def clampScaleColor (m : ℚ × ℚ × ℚ) (bri : ℚ) : Color :=
  (min 255 (pyTrunc (m.1 * bri)).toNat, min 255 (pyTrunc (m.2.1 * bri)).toNat,
    min 255 (pyTrunc (m.2.2 * bri)).toNat)

/-- The helper `get_zone_colors(img, n, axis)`: `axis = false` splits the rows
(numpy axis 0, left/right strips), `axis = true` splits the columns
(numpy axis 1, top strip).  An empty strip yields `n` black entries, a
strip shorter than `n` zones yields `n` copies of the whole-strip
mean, otherwise each of the `n` zones gets the mean of its
`chunk`-thick slice across the full other dimension. -/
def get_zone_colors (img : NpArr) (n : ℕ) (axis : Bool) (bri : ℚ) : List Color :=
  if img.rows * img.cols = 0 then List.replicate n (0, 0, 0)
  else
    let chunk := (if axis then img.cols else img.rows) / n
    if chunk < 1 then
      List.replicate n (scaleColor (npMean img 0 img.rows 0 img.cols) bri)
    else
      (List.range n).map (fun k =>
        let m := if axis then npMean img 0 img.rows (k * chunk) ((k + 1) * chunk)
          else npMean img (k * chunk) ((k + 1) * chunk) 0 img.cols
        clampScaleColor m bri)

/-- The sampler `LedEngine._sample_from_frame(frame, bri)` with the engine's crop
and edge fields passed explicitly.  `crop = (cl, ct, cr_, cb)`. -/
def sample_from_frame (frame : NpArr) (crop : ℚ × ℚ × ℚ × ℚ) (edge_pct bri : ℚ) :
    List Color :=
  let h := frame.rows
  let w := frame.cols
  let x0 := (pyTrunc ((w : ℚ) * crop.1)).toNat
  let y0 := (pyTrunc ((h : ℚ) * crop.2.1)).toNat
  let x1 := max (x0 + 1) (pyTrunc ((w : ℚ) * (1 - crop.2.2.1))).toNat
  let y1 := max (y0 + 1) (pyTrunc ((h : ℚ) * (1 - crop.2.2.2))).toNat
  let scale := max 1 ((y1 - y0) / 360)
  let region := npSlice frame y0 y1 scale x0 x1 scale
  let rh := region.rows
  let rw := region.cols
  let edge := max 2 (pyTrunc ((min rw rh : ℕ) * edge_pct)).toNat
  let l_strip := npSlice region 0 rh 1 0 edge 1
  let t_strip := npSlice region 0 edge 1 0 rw 1
  let r_strip := npSlice region 0 rh 1 (rw - edge) rw 1
  (get_zone_colors l_strip 12 false bri).reverse
    ++ get_zone_colors t_strip 12 true bri
    ++ get_zone_colors r_strip 12 false bri

end Ambilight

/-! ### Statement-side definitions and witness inputs -/

/-- Entry `i` of the rainbow frame as the amended claim describes it:
the hue `(t × s × 0.3 + i/36) mod 1.0` mapped through full-saturation,
full-value HSV to RGB and scaled by `255 × b`. -/
def rainbowEntrySpec (t s b : ℚ) (i : ℕ) : Color :=
  let hue := pyMod1 (t * s * (3 / 10) + (i : ℚ) / 36)
  let c := Ambilight.hsv_to_rgb hue 1 1
  ((pyTrunc (c.1 * 255 * b)).toNat, (pyTrunc (c.2.1 * 255 * b)).toNat,
    (pyTrunc (c.2.2 * 255 * b)).toNat)

/-- One output channel as the claim describes the Temporal Smoother:
`previous + (new − previous) × (1 − α)` truncated toward zero. -/
def specBlendChan (p n : ℕ) (alpha : ℚ) : ℕ :=
  (pyTrunc ((p : ℚ) + ((n : ℚ) - (p : ℚ)) * (1 - alpha))).toNat

/-- One output color of the Temporal Smoother per the claim, applied
independently per channel. -/
def specBlend (p n : Color) (alpha : ℚ) : Color :=
  (specBlendChan p.1 n.1 alpha, specBlendChan p.2.1 n.2.1 alpha,
    specBlendChan p.2.2 n.2.2 alpha)

/-- A 36-LED frame used to instantiate witnesses. -/
def sampleLeds : List Color := List.replicate 36 (3, 7, 11)

/-- A non-symmetric 36-LED frame used to instantiate witnesses. -/
def rampLeds : List Color := (List.range 36).map (fun i => (i, 2 * i, 3 * i))

/-- A small uniform video frame used to instantiate the sampler
witness. -/
def sampleFrame : Ambilight.NpArr := ⟨2, 3, fun _ _ => (10, 20, 30)⟩

/-! ## Helper lemmas -/

namespace Ambilight

/-- The comprehension `[l[11-i] for i in range(12)]` of `build_and_send`
reverses a 12-element list. -/
theorem range12_map_getD_reverse (l : List Color) (h : l.length = 12) :
    (List.range 12).map (fun i => l.getD (11 - i) (0, 0, 0)) = l.reverse := by
  apply List.ext_getElem
  · simp [h]
  · intro i h1 h2
    simp only [List.getElem_map, List.getElem_range]
    have hi : i < 12 := by simpa using h1
    have h11 : 11 - i < l.length := by omega
    rw [List.getD_eq_getElem _ _ h11, List.getElem_reverse]
    congr 1
    omega

theorem length_left_src (leds : List Color) (m : Bool) (h : leds.length = 36) :
    (left_src leds m).length = 12 := by
  cases m <;> simp [left_src, h]

theorem length_top_src (leds : List Color) (m : Bool) (h : leds.length = 36) :
    (top_src leds m).length = 12 := by
  cases m <;> simp [top_src, h]

theorem length_right_src (leds : List Color) (m : Bool) (h : leds.length = 36) :
    (right_src leds m).length = 12 := by
  cases m <;> simp [right_src, h]

theorem assembled_length (leds : List Color) (m : Bool) (h : leds.length = 36) :
    (assembled leds m).length = 36 := by
  simp [assembled, length_top_src leds m h, length_right_src leds m h]

/-- Without the mirror flag the assembled order is
`reverse(left zones) ++ top zones ++ right zones`. -/
theorem assembled_false (leds : List Color) (h : leds.length = 36) :
    assembled leds false
      = (leds.take 12).reverse ++ (leds.drop 12).take 12 ++ (leds.drop 24).take 12 := by
  unfold assembled
  rw [range12_map_getD_reverse _ (length_left_src leds false h)]
  simp [left_src, top_src, right_src]

/-- With the mirror flag the assembled order is the right zones in
original order, then top and left zones reversed. -/
theorem assembled_true (leds : List Color) (h : leds.length = 36) :
    assembled leds true
      = (leds.drop 24).take 12 ++ ((leds.drop 12).take 12).reverse
        ++ (leds.take 12).reverse := by
  unfold assembled
  rw [range12_map_getD_reverse _ (length_left_src leds true h)]
  simp [left_src, top_src, right_src]

theorem blockBytes_length (a : List Color) :
    ∀ n s c, (blockBytes a s c n).length = 5 * n := by
  intro n
  induction n with
  | zero => intro s c; simp [blockBytes]
  | succ n ih =>
    intro s c
    simp [blockBytes, ledEntryBytes, ih]
    omega

theorem blockBytes_getD (a : List Color) :
    ∀ n i s c r, i < n → r < 5 →
      (blockBytes a s c n).getD (5 * i + r) 0
        = (ledEntryBytes (c + 2 * i) (a.getD (s + i) (0, 0, 0))).getD r 0 := by
  intro n
  induction n with
  | zero => intro i s c r hi; omega
  | succ n ih =>
    intro i s c r hi hr
    cases i with
    | zero =>
      simp only [blockBytes, Nat.mul_zero, Nat.zero_add, Nat.add_zero]
      exact List.getD_append _ _ _ _ (by simp [ledEntryBytes]; omega)
    | succ i =>
      simp only [blockBytes]
      rw [List.getD_append_right _ _ _ _ (by simp [ledEntryBytes]; omega)]
      have h5 : 5 * (i + 1) + r - (ledEntryBytes c (a.getD s (0, 0, 0))).length
          = 5 * i + r := by
        simp [ledEntryBytes]; omega
      rw [h5, ih i (s + 1) (c + 2) r (by omega) hr]
      have h1 : c + 2 + 2 * i = c + 2 * (i + 1) := by omega
      have h2 : s + 1 + i = s + (i + 1) := by omega
      rw [h1, h2]

/-- Byte `10 + 5*k + r` of the buffer, for `k < 36` and `r < 5`: the
`r`-th byte of the `k`-th 5-byte LED entry, whose color is assembled
entry `k+1` in the first block and `k` in the other two. -/
theorem build_buffer_getD_block (leds : List Color) (cnt : ℕ) (m : Bool) (k r : ℕ)
    (hk : k < 36) (hr : r < 5) :
    (build_buffer leds cnt m).getD (10 + 5 * k + r) 0
      = (ledEntryBytes (1 + 2 * k)
          ((assembled leds m).getD (if k < 12 then k + 1 else k) (0, 0, 0))).getD r 0 := by
  simp only [build_buffer]
  have hlen1 : (blockBytes (assembled leds m) 1 1 12).length = 60 := blockBytes_length _ _ _ _
  have hlen2 : (blockBytes (assembled leds m) 12 25 12).length = 60 := blockBytes_length _ _ _ _
  have hlen3 : (blockBytes (assembled leds m) 24 49 12).length = 60 := blockBytes_length _ _ _ _
  have hh : ([0x53, 0x43, 0x00, 0xB1, cnt % 256, 0x80, 0x01] : List ℕ).length = 7 := rfl
  have hf : ∀ x y z : ℕ, ([x, y, z] : List ℕ).length = 3 := fun _ _ _ => rfl
  rw [List.getD_append_right _ _ _ _ (by rw [hh]; omega), hh]
  rw [List.getD_append_right _ _ _ _ (by rw [hf]; omega), hf]
  by_cases h12 : k < 12
  · rw [List.getD_append _ _ _ _ (by rw [hlen1]; omega)]
    have hx : 10 + 5 * k + r - 7 - 3 = 5 * k + r := by omega
    rw [hx, blockBytes_getD _ 12 k 1 1 r h12 hr]
    simp only [if_pos h12]
    have h1 : 1 + k = k + 1 := by omega
    rw [h1]
  · rw [List.getD_append_right _ _ _ _ (by rw [hlen1]; omega), hlen1]
    by_cases h24 : k < 24
    · rw [List.getD_append _ _ _ _ (by rw [hlen2]; omega)]
      have hx : 10 + 5 * k + r - 7 - 3 - 60 = 5 * (k - 12) + r := by omega
      rw [hx, blockBytes_getD _ 12 (k - 12) 12 25 r (by omega) hr]
      simp only [if_neg h12]
      have h1 : 25 + 2 * (k - 12) = 1 + 2 * k := by omega
      have h2 : 12 + (k - 12) = k := by omega
      rw [h1, h2]
    · rw [List.getD_append_right _ _ _ _ (by rw [hlen2]; omega), hlen2]
      rw [List.getD_append _ _ _ _ (by rw [hlen3]; omega)]
      have hx : 10 + 5 * k + r - 7 - 3 - 60 - 60 = 5 * (k - 24) + r := by omega
      rw [hx, blockBytes_getD _ 12 (k - 24) 24 49 r (by omega) hr]
      simp only [if_neg h12]
      have h1 : 49 + 2 * (k - 24) = 1 + 2 * k := by omega
      have h2 : 24 + (k - 24) = k := by omega
      rw [h1, h2]

theorem build_buffer_length (leds : List Color) (cnt : ℕ) (m : Bool) :
    (build_buffer leds cnt m).length = 192 := by
  simp [build_buffer, blockBytes_length]

theorem build_buffer_take7 (leds : List Color) (cnt : ℕ) (m : Bool) :
    (build_buffer leds cnt m).take 7
      = [0x53, 0x43, 0x00, 0xB1, cnt % 256, 0x80, 0x01] := by
  simp only [build_buffer]
  exact List.take_left' rfl

theorem build_buffer_getD_first (leds : List Color) (cnt : ℕ) (m : Bool) :
    ((build_buffer leds cnt m).getD 7 0, (build_buffer leds cnt m).getD 8 0,
        (build_buffer leds cnt m).getD 9 0)
      = (assembled leds m).getD 0 (0, 0, 0) := rfl

theorem ledEntryBytes_getD2 (c : ℕ) (col : Color) :
    (ledEntryBytes c col).getD 2 0 = col.1 := rfl

theorem ledEntryBytes_getD3 (c : ℕ) (col : Color) :
    (ledEntryBytes c col).getD 3 0 = col.2.1 := rfl

theorem ledEntryBytes_getD4 (c : ℕ) (col : Color) :
    (ledEntryBytes c col).getD 4 0 = col.2.2 := rfl

/-- Reading back assembled color `j` from the encoded buffer recovers
the assembled list entry. -/
theorem decodeAssembled_build (leds : List Color) (cnt : ℕ) (m : Bool)
    (hlen : leds.length = 36) (j : ℕ) (hj : j < 36) :
    decodeAssembled (build_buffer leds cnt m) j
      = (assembled leds m).getD j (0, 0, 0) := by
  unfold decodeAssembled
  by_cases h0 : j = 0
  · subst h0
    rw [if_pos rfl]
    exact build_buffer_getD_first leds cnt m
  · rw [if_neg h0]
    by_cases h12 : j < 12
    · rw [if_pos h12]
      have e2 := build_buffer_getD_block leds cnt m (j - 1) 2 (by omega) (by omega)
      have e3 := build_buffer_getD_block leds cnt m (j - 1) 3 (by omega) (by omega)
      have e4 := build_buffer_getD_block leds cnt m (j - 1) 4 (by omega) (by omega)
      have i2 : 7 + 5 * j = 10 + 5 * (j - 1) + 2 := by omega
      have i3 : 8 + 5 * j = 10 + 5 * (j - 1) + 3 := by omega
      have i4 : 9 + 5 * j = 10 + 5 * (j - 1) + 4 := by omega
      rw [i2, i3, i4, e2, e3, e4, ledEntryBytes_getD2, ledEntryBytes_getD3,
        ledEntryBytes_getD4, if_pos (show j - 1 < 12 by omega)]
      have hjj : j - 1 + 1 = j := by omega
      rw [hjj]
    · rw [if_neg h12]
      have e2 := build_buffer_getD_block leds cnt m j 2 hj (by omega)
      have e3 := build_buffer_getD_block leds cnt m j 3 hj (by omega)
      have e4 := build_buffer_getD_block leds cnt m j 4 hj (by omega)
      have i2 : 12 + 5 * j = 10 + 5 * j + 2 := by omega
      have i3 : 13 + 5 * j = 10 + 5 * j + 3 := by omega
      have i4 : 14 + 5 * j = 10 + 5 * j + 4 := by omega
      rw [i2, i3, i4, e2, e3, e4, ledEntryBytes_getD2, ledEntryBytes_getD3,
        ledEntryBytes_getD4, if_neg h12]

/-- The decoder's first step recovers the whole assembled list. -/
theorem decode_map_range (leds : List Color) (cnt : ℕ) (m : Bool)
    (hlen : leds.length = 36) :
    (List.range 36).map (decodeAssembled (build_buffer leds cnt m))
      = assembled leds m := by
  apply List.ext_getElem
  · simp [assembled_length leds m hlen]
  · intro j h1 h2
    simp only [List.getElem_map, List.getElem_range]
    have hj : j < 36 := by simpa using h1
    rw [← List.getD_eq_getElem _ (0, 0, 0) h2]
    exact decodeAssembled_build leds cnt m hlen j hj

/-- Concatenating the three 64-byte chunks of a 192-byte buffer gives
back the buffer. -/
theorem chunks_append (l : List ℕ) (h : l.length = 192) :
    chunk l 0 ++ chunk l 1 ++ chunk l 2 = l := by
  have h0 : chunk l 0 = l.take 64 := rfl
  have h1 : chunk l 1 = (l.drop 64).take 64 := rfl
  have h2 : chunk l 2 = l.drop 128 := List.take_of_length_le (by simp [h])
  have h3 : (l.drop 64).take 64 ++ l.drop 128 = l.drop 64 := by
    have h4 := List.take_append_drop 64 (l.drop 64)
    rw [List.drop_drop] at h4
    norm_num at h4
    exact h4
  rw [h0, h1, h2, List.append_assoc, h3, List.take_append_drop]

theorem take12_triple (X Y Z : List Color) (hx : X.length = 12) :
    (X ++ Y ++ Z).take 12 = X := by
  rw [List.append_assoc]
  exact List.take_left' hx

theorem drop12_triple (X Y Z : List Color) (hx : X.length = 12) :
    (X ++ Y ++ Z).drop 12 = Y ++ Z := by
  rw [List.append_assoc]
  exact List.drop_left' hx

theorem drop24_triple (X Y Z : List Color) (hx : X.length = 12) (hy : Y.length = 12) :
    (X ++ Y ++ Z).drop 24 = Z :=
  List.drop_left' (by simp [hx, hy])

/-- Splitting a 36-entry list at 12 and 24 and reassembling gives it
back. -/
theorem split36 (l : List Color) (h : l.length = 36) :
    l.take 12 ++ (l.drop 12).take 12 ++ (l.drop 24).take 12 = l := by
  have h4 : (l.drop 24).take 12 = l.drop 24 := List.take_of_length_le (by simp [h])
  have h2 := List.take_append_drop 12 (l.drop 12)
  rw [List.drop_drop] at h2
  norm_num at h2
  rw [h4, List.append_assoc, h2, List.take_append_drop]

theorem mirrorFrame_length (l : List Color) (h : l.length = 36) :
    (mirrorFrame l).length = 36 := by
  simp [mirrorFrame, h]

/-- The frame-level mirror transformation is an involution. -/
theorem mirrorFrame_involution (l : List Color) (h : l.length = 36) :
    mirrorFrame (mirrorFrame l) = l := by
  unfold mirrorFrame
  rw [drop24_triple _ _ _ (by simp [h]) (by simp [h]),
    drop12_triple _ _ _ (by simp [h]),
    take12_triple _ _ _ (by simp [h]),
    List.take_of_length_le (show ((l.take 12).reverse).length ≤ 12 by simp [h]),
    List.take_left' (show (((l.drop 12).take 12).reverse).length = 12 by simp [h]),
    List.reverse_reverse, List.reverse_reverse, List.reverse_reverse]
  exact split36 l h

/-- Encoding with the mirror flag is the same as encoding the
mirrored frame without it. -/
theorem assembled_true_eq_mirror (l : List Color) (h : l.length = 36) :
    assembled l true = assembled (mirrorFrame l) false := by
  rw [assembled_true l h, assembled_false _ (mirrorFrame_length l h)]
  unfold mirrorFrame
  rw [take12_triple _ _ _ (by simp [h]), drop12_triple _ _ _ (by simp [h]),
    drop24_triple _ _ _ (by simp [h]) (by simp [h]),
    List.take_left' (show (((l.drop 12).take 12).reverse).length = 12 by simp [h]),
    List.take_of_length_le (show ((l.take 12).reverse).length ≤ 12 by simp [h]),
    List.reverse_reverse]

/-- Every `getD` lookup in a list of byte colors is a byte color. -/
theorem getD_isByte (l : List Color) (hb : ∀ c ∈ l, isByte c) (j : ℕ) :
    isByte (l.getD j (0, 0, 0)) := by
  by_cases hj : j < l.length
  · rw [List.getD_eq_getElem _ _ hj]
    exact hb _ (List.getElem_mem hj)
  · rw [List.getD_eq_default _ _ (by omega)]
    exact ⟨by norm_num, by norm_num, by norm_num⟩

end Ambilight

namespace DXLight

/-- With byte-valued colors the `& 0xFF` masks of `_build_buffer` are
no-ops, so its blocks agree with those of `build_and_send`. -/
theorem dxBlockBytes_eq (a : List Color)
    (hab : ∀ j, isByte (a.getD j (0, 0, 0))) :
    ∀ n s c, dxBlockBytes a s c n = Ambilight.blockBytes a s c n := by
  intro n
  induction n with
  | zero => intro s c; rfl
  | succ n ih =>
    intro s c
    simp only [dxBlockBytes, Ambilight.blockBytes, ih]
    obtain ⟨h1, h2, h3⟩ := hab s
    have e1 : (a.getD s (0, 0, 0)).1 % 256 = (a.getD s (0, 0, 0)).1 :=
      Nat.mod_eq_of_lt (by omega)
    have e2 : (a.getD s (0, 0, 0)).2.1 % 256 = (a.getD s (0, 0, 0)).2.1 :=
      Nat.mod_eq_of_lt (by omega)
    have e3 : (a.getD s (0, 0, 0)).2.2 % 256 = (a.getD s (0, 0, 0)).2.2 :=
      Nat.mod_eq_of_lt (by omega)
    unfold dxLedEntryBytes Ambilight.ledEntryBytes
    rw [e1, e2, e3]

end DXLight

/-! ## Claim theorems -/

/-! ## Claim theorems -/

/-- C1: with mirror disabled, the encoder produces a 192-byte buffer
whose bytes 0-6 are `[0x53, 0x43, 0x00, 0xB1, counter mod 256, 0x80,
0x01]`, whose bytes 7-9 are the R,G,B of `assembled[0]` for
`assembled = reverse(left zones) ++ top zones ++ right zones`, and
whose bytes from 10 on are three blocks of 12 LEDs covering assembled
indices [1,13), [12,24), [24,36), each LED written as 5 bytes: two
sequential counter bytes of the stream 1,2,3,... taken mod 256,
followed by R, G, B. -/
theorem C1_wire_layout (leds : List Color) (cnt : ℕ)
    (hlen : leds.length = 36) (hb : ∀ c ∈ leds, isByte c) :
    (Ambilight.build_buffer leds cnt false).length = 192 ∧
    (Ambilight.build_buffer leds cnt false).take 7
      = [0x53, 0x43, 0x00, 0xB1, cnt % 256, 0x80, 0x01] ∧
    ((Ambilight.build_buffer leds cnt false).getD 7 0,
      (Ambilight.build_buffer leds cnt false).getD 8 0,
      (Ambilight.build_buffer leds cnt false).getD 9 0)
      = ((leds.take 12).reverse ++ (leds.drop 12).take 12
          ++ (leds.drop 24).take 12).getD 0 (0, 0, 0) ∧
    ∀ b, b < 3 → ∀ i, i < 12 →
      (Ambilight.build_buffer leds cnt false).getD (10 + 5 * (12 * b + i)) 0
        = (2 * (12 * b + i) + 1) % 256 ∧
      (Ambilight.build_buffer leds cnt false).getD (10 + 5 * (12 * b + i) + 1) 0
        = (2 * (12 * b + i) + 2) % 256 ∧
      ((Ambilight.build_buffer leds cnt false).getD (10 + 5 * (12 * b + i) + 2) 0,
        (Ambilight.build_buffer leds cnt false).getD (10 + 5 * (12 * b + i) + 3) 0,
        (Ambilight.build_buffer leds cnt false).getD (10 + 5 * (12 * b + i) + 4) 0)
        = ((leds.take 12).reverse ++ (leds.drop 12).take 12
            ++ (leds.drop 24).take 12).getD (([1, 12, 24] : List ℕ).getD b 0 + i)
            (0, 0, 0) := by
  refine ⟨Ambilight.build_buffer_length leds cnt false,
    Ambilight.build_buffer_take7 leds cnt false, ?_, ?_⟩
  · rw [Ambilight.build_buffer_getD_first leds cnt false,
      Ambilight.assembled_false leds hlen]
  · intro b hb3 i hi
    have hk : 12 * b + i < 36 := by omega
    have hJ : (if 12 * b + i < 12 then 12 * b + i + 1 else 12 * b + i)
        = ([1, 12, 24] : List ℕ).getD b 0 + i := by
      interval_cases b
      · rw [show (([1, 12, 24] : List ℕ).getD 0 0) = 1 from rfl, if_pos (by omega)]; omega
      · rw [show (([1, 12, 24] : List ℕ).getD 1 0) = 12 from rfl, if_neg (by omega)]
      · rw [show (([1, 12, 24] : List ℕ).getD 2 0) = 24 from rfl, if_neg (by omega)]
    refine ⟨?_, ?_, ?_⟩
    · show (Ambilight.build_buffer leds cnt false).getD (10 + 5 * (12 * b + i) + 0) 0 = _
      rw [Ambilight.build_buffer_getD_block leds cnt false _ 0 hk (by omega)]
      show (1 + 2 * (12 * b + i)) % 256 = (2 * (12 * b + i) + 1) % 256
      omega
    · rw [Ambilight.build_buffer_getD_block leds cnt false _ 1 hk (by omega)]
      show (1 + 2 * (12 * b + i) + 1) % 256 = (2 * (12 * b + i) + 2) % 256
      omega
    · have e2 := Ambilight.build_buffer_getD_block leds cnt false (12 * b + i) 2 hk
        (by omega)
      have e3 := Ambilight.build_buffer_getD_block leds cnt false (12 * b + i) 3 hk
        (by omega)
      have e4 := Ambilight.build_buffer_getD_block leds cnt false (12 * b + i) 4 hk
        (by omega)
      rw [e2, e3, e4]
      rw [show ∀ c col, (Ambilight.ledEntryBytes c col).getD 2 0 = col.1 from fun _ _ => rfl,
        show ∀ c col, (Ambilight.ledEntryBytes c col).getD 3 0 = col.2.1 from fun _ _ => rfl,
        show ∀ c col, (Ambilight.ledEntryBytes c col).getD 4 0 = col.2.2 from fun _ _ => rfl,
        Ambilight.assembled_false leds hlen, hJ]

/-- Witness for C1 at a concrete frame and counter. -/
theorem C1_wire_layout_witness :
    sampleLeds.length = 36 ∧ (∀ c ∈ sampleLeds, isByte c) ∧
    ((Ambilight.build_buffer sampleLeds 260 false).length = 192 ∧
      (Ambilight.build_buffer sampleLeds 260 false).take 7
        = [0x53, 0x43, 0x00, 0xB1, 260 % 256, 0x80, 0x01] ∧
      ((Ambilight.build_buffer sampleLeds 260 false).getD 7 0,
        (Ambilight.build_buffer sampleLeds 260 false).getD 8 0,
        (Ambilight.build_buffer sampleLeds 260 false).getD 9 0)
        = ((sampleLeds.take 12).reverse ++ (sampleLeds.drop 12).take 12
            ++ (sampleLeds.drop 24).take 12).getD 0 (0, 0, 0) ∧
      ∀ b, b < 3 → ∀ i, i < 12 →
        (Ambilight.build_buffer sampleLeds 260 false).getD (10 + 5 * (12 * b + i)) 0
          = (2 * (12 * b + i) + 1) % 256 ∧
        (Ambilight.build_buffer sampleLeds 260 false).getD (10 + 5 * (12 * b + i) + 1) 0
          = (2 * (12 * b + i) + 2) % 256 ∧
        ((Ambilight.build_buffer sampleLeds 260 false).getD (10 + 5 * (12 * b + i) + 2) 0,
          (Ambilight.build_buffer sampleLeds 260 false).getD (10 + 5 * (12 * b + i) + 3) 0,
          (Ambilight.build_buffer sampleLeds 260 false).getD (10 + 5 * (12 * b + i) + 4) 0)
          = ((sampleLeds.take 12).reverse ++ (sampleLeds.drop 12).take 12
              ++ (sampleLeds.drop 24).take 12).getD (([1, 12, 24] : List ℕ).getD b 0 + i)
              (0, 0, 0)) :=
  ⟨by decide, by decide, C1_wire_layout sampleLeds 260 (by decide) (by decide)⟩

/-- C2: for every 36-entry frame with byte channels, every counter
byte and every mirror flag, the decoder recovers all 36 original
colors from the three 64-byte chunks, and the header of the first
chunk carries the fixed constants with the counter in byte 4. -/
theorem C2_roundtrip (leds : List Color) (cnt : ℕ) (mirror : Bool)
    (hlen : leds.length = 36) (hb : ∀ c ∈ leds, isByte c) (hcnt : cnt ≤ 255) :
    Ambilight.decode (Ambilight.chunk (Ambilight.build_buffer leds cnt mirror) 0)
        (Ambilight.chunk (Ambilight.build_buffer leds cnt mirror) 1)
        (Ambilight.chunk (Ambilight.build_buffer leds cnt mirror) 2) mirror = leds ∧
    (Ambilight.chunk (Ambilight.build_buffer leds cnt mirror) 0).take 7
      = [0x53, 0x43, 0x00, 0xB1, cnt, 0x80, 0x01] := by
  constructor
  · simp only [Ambilight.decode]
    rw [Ambilight.chunks_append _ (Ambilight.build_buffer_length leds cnt mirror),
      Ambilight.decode_map_range leds cnt mirror hlen]
    cases mirror
    · simp only [Bool.false_eq_true, if_false]
      rw [Ambilight.assembled_false leds hlen,
        Ambilight.take12_triple _ _ _ (by simp [hlen]),
        Ambilight.drop12_triple _ _ _ (by simp [hlen]),
        Ambilight.drop24_triple _ _ _ (by simp [hlen]) (by simp [hlen]),
        List.take_left' (show ((leds.drop 12).take 12).length = 12 by simp [hlen]),
        List.take_of_length_le (show ((leds.drop 24).take 12).length ≤ 12 by simp [hlen]),
        List.reverse_reverse]
      exact Ambilight.split36 leds hlen
    · simp only [if_true]
      rw [Ambilight.assembled_true leds hlen,
        Ambilight.take12_triple _ _ _ (by simp [hlen]),
        Ambilight.drop12_triple _ _ _ (by simp [hlen]),
        Ambilight.drop24_triple _ _ _ (by simp [hlen]) (by simp [hlen]),
        List.take_left' (show (((leds.drop 12).take 12).reverse).length = 12 by simp [hlen]),
        List.take_of_length_le (show ((leds.take 12).reverse).length ≤ 12 by simp [hlen]),
        List.reverse_reverse, List.reverse_reverse]
      exact Ambilight.split36 leds hlen
  · have hc0 : Ambilight.chunk (Ambilight.build_buffer leds cnt mirror) 0
        = (Ambilight.build_buffer leds cnt mirror).take 64 := rfl
    rw [hc0, List.take_take]
    norm_num
    rw [Ambilight.build_buffer_take7, Nat.mod_eq_of_lt (by omega)]

/-- Witness for C2 at a concrete frame, counter and mirror flag. -/
theorem C2_roundtrip_witness :
    sampleLeds.length = 36 ∧ (∀ c ∈ sampleLeds, isByte c) ∧ (191 : ℕ) ≤ 255 ∧
    (Ambilight.decode (Ambilight.chunk (Ambilight.build_buffer sampleLeds 191 true) 0)
        (Ambilight.chunk (Ambilight.build_buffer sampleLeds 191 true) 1)
        (Ambilight.chunk (Ambilight.build_buffer sampleLeds 191 true) 2) true = sampleLeds ∧
      (Ambilight.chunk (Ambilight.build_buffer sampleLeds 191 true) 0).take 7
        = [0x53, 0x43, 0x00, 0xB1, 191, 0x80, 0x01]) :=
  ⟨by decide, by decide, by decide,
    C2_roundtrip sampleLeds 191 true (by decide) (by decide) (by decide)⟩

/-- C8: the encoder-level mirror transformation (swap left and right
zone groups with reversal, reverse the top zones) agrees with the
mirror flag, and applying it twice reproduces the original assembled
order for either value of the flag. -/
theorem C8_mirror_involution (leds : List Color) (hlen : leds.length = 36) :
    Ambilight.assembled leds true
      = Ambilight.assembled (Ambilight.mirrorFrame leds) false ∧
    ∀ m : Bool,
      Ambilight.assembled (Ambilight.mirrorFrame (Ambilight.mirrorFrame leds)) m
        = Ambilight.assembled leds m := by
  refine ⟨Ambilight.assembled_true_eq_mirror leds hlen, fun m => ?_⟩
  rw [Ambilight.mirrorFrame_involution leds hlen]

/-- Witness for C8 at a concrete non-symmetric frame. -/
theorem C8_mirror_involution_witness :
    rampLeds.length = 36 ∧
    (Ambilight.assembled rampLeds true
        = Ambilight.assembled (Ambilight.mirrorFrame rampLeds) false ∧
      ∀ m : Bool,
        Ambilight.assembled (Ambilight.mirrorFrame (Ambilight.mirrorFrame rampLeds)) m
          = Ambilight.assembled rampLeds m) :=
  ⟨by decide, C8_mirror_involution rampLeds (by decide)⟩

/-- C10: for byte-valued 36-entry frames and equal counters, the
buffer of `build_and_send` with mirror disabled is byte-for-byte the
buffer of `DXLightController._build_buffer`, and both are split into
the same three zero-prefixed 64-byte transport chunks. -/
theorem C10_refinement (leds : List Color) (cnt : ℕ)
    (hlen : leds.length = 36) (hb : ∀ c ∈ leds, isByte c) :
    Ambilight.build_buffer leds cnt false = (DXLight.build_buffer leds cnt).1 ∧
    ∀ i, i < 3 →
      Ambilight.chunkReport (Ambilight.build_buffer leds cnt false) i
        = DXLight.chunkReport (DXLight.build_buffer leds cnt).1 i := by
  have hall : ∀ j, isByte (((leds.take 12).reverse ++ (leds.drop 12).take 12
      ++ (leds.drop 24).take 12).getD j (0, 0, 0)) := by
    refine fun j => Ambilight.getD_isByte _ ?_ j
    intro c hc
    simp only [List.mem_append, List.mem_reverse] at hc
    rcases hc with (hc | hc) | hc
    · exact hb _ (List.mem_of_mem_take hc)
    · exact hb _ (List.mem_of_mem_drop (List.mem_of_mem_take hc))
    · exact hb _ (List.mem_of_mem_drop (List.mem_of_mem_take hc))
  have hmain : Ambilight.build_buffer leds cnt false = (DXLight.build_buffer leds cnt).1 := by
    simp only [Ambilight.build_buffer, DXLight.build_buffer]
    rw [Ambilight.assembled_false leds hlen]
    obtain ⟨h1, h2, h3⟩ := hall 0
    have e1 : (((leds.take 12).reverse ++ (leds.drop 12).take 12
        ++ (leds.drop 24).take 12).getD 0 (0, 0, 0)).1 % 256
        = (((leds.take 12).reverse ++ (leds.drop 12).take 12
        ++ (leds.drop 24).take 12).getD 0 (0, 0, 0)).1 := Nat.mod_eq_of_lt (by omega)
    have e2 : (((leds.take 12).reverse ++ (leds.drop 12).take 12
        ++ (leds.drop 24).take 12).getD 0 (0, 0, 0)).2.1 % 256
        = (((leds.take 12).reverse ++ (leds.drop 12).take 12
        ++ (leds.drop 24).take 12).getD 0 (0, 0, 0)).2.1 := Nat.mod_eq_of_lt (by omega)
    have e3 : (((leds.take 12).reverse ++ (leds.drop 12).take 12
        ++ (leds.drop 24).take 12).getD 0 (0, 0, 0)).2.2 % 256
        = (((leds.take 12).reverse ++ (leds.drop 12).take 12
        ++ (leds.drop 24).take 12).getD 0 (0, 0, 0)).2.2 := Nat.mod_eq_of_lt (by omega)
    rw [e1, e2, e3, DXLight.dxBlockBytes_eq _ hall 12 1 1,
      DXLight.dxBlockBytes_eq _ hall 12 12 25, DXLight.dxBlockBytes_eq _ hall 12 24 49]
  refine ⟨hmain, fun i _ => ?_⟩
  rw [hmain]
  rfl

/-- Witness for C10 at a concrete frame and counter. -/
theorem C10_refinement_witness :
    rampLeds.length = 36 ∧ (∀ c ∈ rampLeds, isByte c) ∧
    (Ambilight.build_buffer rampLeds 77 false = (DXLight.build_buffer rampLeds 77).1 ∧
      ∀ i, i < 3 →
        Ambilight.chunkReport (Ambilight.build_buffer rampLeds 77 false) i
          = DXLight.chunkReport (DXLight.build_buffer rampLeds 77).1 i) :=
  ⟨by decide, by decide, C10_refinement rampLeds 77 (by decide) (by decide)⟩

theorem blendChan_self (c : ℕ) (f : ℚ) : Ambilight.blendChan c c f = c := by
  unfold Ambilight.blendChan pyTrunc
  rw [sub_self, zero_mul, add_zero, if_neg (not_lt.mpr (Nat.cast_nonneg c)),
    Int.floor_natCast]
  exact Int.toNat_natCast c

theorem blendColor_self (x : Color) (f : ℚ) : Ambilight.blendColor x x f = x := by
  unfold Ambilight.blendColor
  rw [blendChan_self, blendChan_self, blendChan_self]

/-- Blending a frame with itself leaves it unchanged. -/
theorem smoothFrame_self (l : List Color) (alpha : ℚ) :
    Ambilight.smoothFrame l l alpha = l := by
  induction l with
  | nil => rfl
  | cons x xs ih =>
    show Ambilight.blendColor x x (1 - alpha) :: Ambilight.smoothFrame xs xs alpha = x :: xs
    rw [ih, blendColor_self]

theorem blendColor_alpha0 (c t : Color) : Ambilight.blendColor c t (1 - 0) = t := by
  unfold Ambilight.blendColor Ambilight.blendChan pyTrunc
  have h : ∀ a b : ℕ, (a : ℚ) + ((b : ℚ) - (a : ℚ)) * (1 - 0) = (b : ℚ) := by
    intro a b; ring
  rw [h, h, h, if_neg (not_lt.mpr (Nat.cast_nonneg _)),
    if_neg (not_lt.mpr (Nat.cast_nonneg _)), if_neg (not_lt.mpr (Nat.cast_nonneg _)),
    Int.floor_natCast, Int.floor_natCast, Int.floor_natCast,
    Int.toNat_natCast, Int.toNat_natCast, Int.toNat_natCast]

/-- Blending two constant frames entrywise blends the constants. -/
theorem smoothFrame_replicate (n : ℕ) (x y : Color) (alpha : ℚ) :
    Ambilight.smoothFrame (List.replicate n x) (List.replicate n y) alpha
      = List.replicate n (Ambilight.blendColor x y (1 - alpha)) := by
  induction n with
  | zero => rfl
  | succ n ih =>
    show Ambilight.blendColor x y (1 - alpha)
        :: Ambilight.smoothFrame (List.replicate n x) (List.replicate n y) alpha = _
    rw [ih]
    rfl

/-- Indexing into a map over `List.range`. -/
theorem getD_map_range {α : Type} (f : ℕ → α) (d : α) (n i : ℕ) (h : i < n) :
    ((List.range n).map f).getD i d = f i := by
  rw [List.getD_eq_getElem _ _ (by simpa using h)]
  simp

/-- C3 counterexample: after a loop tick, the all-black sends of
`stop` and `disconnect` reuse the counter without incrementing it, so
two consecutive successful sends carry the same counter byte — the
counter byte does not strictly increment by 1 mod 256 from one send to
the next. -/
theorem C3_counter_counterexample :
    Ambilight.sendTrace 5 [Ambilight.SendEvent.loopTick, Ambilight.SendEvent.stopSend,
        Ambilight.SendEvent.disconnectSend] = [5, 6, 6] ∧
    ¬ ((Ambilight.sendTrace 5 [Ambilight.SendEvent.loopTick, Ambilight.SendEvent.stopSend,
        Ambilight.SendEvent.disconnectSend]).getD 2 0
      = ((Ambilight.sendTrace 5 [Ambilight.SendEvent.loopTick, Ambilight.SendEvent.stopSend,
        Ambilight.SendEvent.disconnectSend]).getD 1 0 + 1) % 256) := by
  decide

/-- C3 amended: across consecutive successful loop-tick sends the
counter byte strictly increments by 1 mod 256; the all-black frames of
`stop` and `disconnect` send the current counter without incrementing
it. -/
theorem C3_counter_amended (c : ℕ) (evs : List Ambilight.SendEvent) (i : ℕ)
    (h : ∀ e ∈ evs, e = Ambilight.SendEvent.loopTick) (hi : i + 1 < evs.length) :
    (Ambilight.sendTrace c evs).getD (i + 1) 0
      = ((Ambilight.sendTrace c evs).getD i 0 + 1) % 256 := by
  induction evs generalizing c i with
  | nil => simp at hi
  | cons e es ih =>
    have he : e = Ambilight.SendEvent.loopTick := h e (by simp)
    subst he
    cases i with
    | zero =>
      cases es with
      | nil => simp at hi
      | cons e2 es2 =>
        have he2 : e2 = Ambilight.SendEvent.loopTick := h e2 (by simp)
        subst he2
        show (Ambilight.sendTrace ((c + 1) % 256)
            (Ambilight.SendEvent.loopTick :: es2)).getD 0 0 = ((c % 256) + 1) % 256
        show ((c + 1) % 256) % 256 = ((c % 256) + 1) % 256
        omega
    | succ i =>
      have h2 : ∀ e ∈ es, e = Ambilight.SendEvent.loopTick :=
        fun e he2 => h e (List.mem_cons_of_mem _ he2)
      have hi2 : i + 1 < es.length := by simpa using hi
      have h3 := ih ((c + 1) % 256) i h2 hi2
      exact h3

/-- Witness for the amended C3 on a two-tick loop trace. -/
theorem C3_counter_amended_witness :
    (∀ e ∈ [Ambilight.SendEvent.loopTick, Ambilight.SendEvent.loopTick],
      e = Ambilight.SendEvent.loopTick) ∧
    0 + 1 < ([Ambilight.SendEvent.loopTick, Ambilight.SendEvent.loopTick]).length ∧
    (Ambilight.sendTrace 9 [Ambilight.SendEvent.loopTick,
        Ambilight.SendEvent.loopTick]).getD (0 + 1) 0
      = ((Ambilight.sendTrace 9 [Ambilight.SendEvent.loopTick,
        Ambilight.SendEvent.loopTick]).getD 0 0 + 1) % 256 :=
  ⟨by decide, by decide,
    C3_counter_amended 9 [Ambilight.SendEvent.loopTick, Ambilight.SendEvent.loopTick] 0
      (by decide) (by decide)⟩

/-- C4 counterexample: tick 1 samples a gray frame into a black
smoothed state with α = 1/2; on tick 2 the acquisition fails and the
frame fed into the smoother is the previous smoothed output
(50,50,50)×36, not the previous tick's pre-smoothing frame
(100,100,100)×36. -/
theorem C4_capture_failure_counterexample :
    (Ambilight.captureTick
        (Ambilight.captureTick (List.replicate 36 ((0 : ℕ), (0 : ℕ), (0 : ℕ)))
          (some (List.replicate 36 ((100 : ℕ), (100 : ℕ), (100 : ℕ)))) (1 / 2) true).out
        none (1 / 2) true).fed
      ≠ List.replicate 36 ((100 : ℕ), (100 : ℕ), (100 : ℕ)) ∧
    (Ambilight.captureTick
        (Ambilight.captureTick (List.replicate 36 ((0 : ℕ), (0 : ℕ), (0 : ℕ)))
          (some (List.replicate 36 ((100 : ℕ), (100 : ℕ), (100 : ℕ)))) (1 / 2) true).out
        none (1 / 2) true).fed
      = (Ambilight.captureTick (List.replicate 36 ((0 : ℕ), (0 : ℕ), (0 : ℕ)))
          (some (List.replicate 36 ((100 : ℕ), (100 : ℕ), (100 : ℕ)))) (1 / 2) true).out := by
  have hval : Ambilight.blendColor ((0 : ℕ), (0 : ℕ), (0 : ℕ))
      ((100 : ℕ), (100 : ℕ), (100 : ℕ)) (1 - 1 / 2) = (50, 50, 50) := by
    unfold Ambilight.blendColor Ambilight.blendChan pyTrunc
    norm_num
    decide
  constructor
  · show Ambilight.smoothFrame (List.replicate 36 ((0 : ℕ), (0 : ℕ), (0 : ℕ)))
        (List.replicate 36 ((100 : ℕ), (100 : ℕ), (100 : ℕ))) (1 / 2) ≠ _
    rw [smoothFrame_replicate, hval]
    intro hEq
    have h0 := congrArg (fun l => l.getD 0 ((0 : ℕ), (0 : ℕ), (0 : ℕ))) hEq
    simp at h0
  · rfl

/-- C4 amended: on an acquisition failure the frame fed into the
smoother is the previous tick's smoothed output `cur` (so the
smoothing step holds the output unchanged), and the failure does not
stop the loop — `running` is whatever the send outcome is. -/
theorem C4_capture_failure_amended (cur : List Color) (alpha : ℚ) (sendOk : Bool) :
    (Ambilight.captureTick cur none alpha sendOk).fed = cur ∧
    (Ambilight.captureTick cur none alpha sendOk).out = cur ∧
    (Ambilight.captureTick cur none alpha sendOk).running = sendOk := by
  refine ⟨rfl, ?_, rfl⟩
  show Ambilight.smoothFrame cur cur alpha = cur
  exact smoothFrame_self cur alpha

/-- C5 counterexample: the rainbow generator is position-aware — at
t = 0, speed 50 and full brightness, LED 0 is red while LED 18 is
cyan, so the 36 entries are not all identical. -/
theorem C5_rainbow_counterexample :
    (Ambilight.gen_rainbow 0 50 1).getD 0 (0, 0, 0)
      ≠ (Ambilight.gen_rainbow 0 50 1).getD 18 (0, 0, 0) := by
  have h0 : (Ambilight.gen_rainbow 0 50 1).getD 0 (0, 0, 0) = (255, 0, 0) := by
    simp only [Ambilight.gen_rainbow]
    rw [getD_map_range _ _ 36 0 (by norm_num)]
    norm_num [Ambilight.hsv_to_rgb, pyMod1, pyTrunc]
    try simp
    try norm_num
    try decide
  have h18 : (Ambilight.gen_rainbow 0 50 1).getD 18 (0, 0, 0) = (0, 255, 255) := by
    simp only [Ambilight.gen_rainbow]
    rw [getD_map_range _ _ 36 18 (by norm_num)]
    norm_num [Ambilight.hsv_to_rgb, pyMod1, pyTrunc]
    try simp
    try norm_num
    try decide
  rw [h0, h18]
  simp

/-- C5 amended: the rainbow generator returns a 36-entry frame whose
entry `i` has the per-index hue `(t × s × 0.3 + i/36) mod 1.0` (with
`s = effect_speed / 50`) mapped through full-saturation, full-value
HSV to RGB and scaled by brightness; entries at different indices may
differ. -/
theorem C5_rainbow_amended (t es bri : ℚ) :
    (Ambilight.gen_rainbow t es bri).length = 36 ∧
    ∀ i, i < 36 →
      (Ambilight.gen_rainbow t es bri).getD i (0, 0, 0)
        = rainbowEntrySpec t (es / 50) bri i := by
  constructor
  · simp only [Ambilight.gen_rainbow]
    rw [List.length_map, List.length_range]
  · intro i hi
    simp only [Ambilight.gen_rainbow]
    rw [getD_map_range _ _ 36 i hi]
    rfl

/-- Witness for the amended C5 at concrete parameters and index. -/
theorem C5_rainbow_amended_witness :
    (Ambilight.gen_rainbow (17 / 10) 73 (4 / 5)).length = 36 ∧ (5 : ℕ) < 36 ∧
    (Ambilight.gen_rainbow (17 / 10) 73 (4 / 5)).getD 5 (0, 0, 0)
      = rainbowEntrySpec (17 / 10) (73 / 50) (4 / 5) 5 :=
  ⟨(C5_rainbow_amended (17 / 10) 73 (4 / 5)).1, by decide,
    (C5_rainbow_amended (17 / 10) 73 (4 / 5)).2 5 (by decide)⟩

/-- C7: the Temporal Smoother computes each output channel as
`previous + (new − previous) × (1 − α)` truncated toward zero,
independently per LED and per channel, and with α = 0 the output
equals the new frame exactly. -/
theorem C7_smoother (prev new : List Color) (alpha : ℚ)
    (hp : prev.length = 36) (hn : new.length = 36)
    (hbp : ∀ c ∈ prev, isByte c) (hbn : ∀ c ∈ new, isByte c)
    (ha0 : 0 ≤ alpha) (ha1 : alpha < 1) :
    (∀ i, i < 36 →
      (Ambilight.smoothFrame prev new alpha).getD i (0, 0, 0)
        = specBlend (prev.getD i (0, 0, 0)) (new.getD i (0, 0, 0)) alpha) ∧
    (alpha = 0 → Ambilight.smoothFrame prev new alpha = new) := by
  constructor
  · intro i hi
    have hip : i < prev.length := by omega
    have hin : i < new.length := by omega
    have hiz : i < (Ambilight.smoothFrame prev new alpha).length := by
      simp [Ambilight.smoothFrame]; omega
    rw [List.getD_eq_getElem _ _ hiz, List.getD_eq_getElem _ _ hip,
      List.getD_eq_getElem _ _ hin]
    show (List.zipWith _ prev new)[i] = _
    rw [List.getElem_zipWith]
    rfl
  · intro h0
    subst h0
    apply List.ext_getElem
    · simp [Ambilight.smoothFrame]; omega
    · intro i h1 h2
      show (List.zipWith _ prev new)[i] = new[i]
      rw [List.getElem_zipWith]
      exact blendColor_alpha0 _ _

/-- Witness for C7 at concrete frames, α and index. -/
theorem C7_smoother_witness :
    sampleLeds.length = 36 ∧ rampLeds.length = 36 ∧
    (∀ c ∈ sampleLeds, isByte c) ∧ (∀ c ∈ rampLeds, isByte c) ∧
    (0 : ℚ) ≤ 1 / 4 ∧ (1 / 4 : ℚ) < 1 ∧ (7 : ℕ) < 36 ∧
    (Ambilight.smoothFrame sampleLeds rampLeds (1 / 4)).getD 7 (0, 0, 0)
      = specBlend (sampleLeds.getD 7 (0, 0, 0)) (rampLeds.getD 7 (0, 0, 0)) (1 / 4) :=
  ⟨by decide, by decide, by decide, by decide, by norm_num, by norm_num, by decide,
    (C7_smoother sampleLeds rampLeds (1 / 4) (by decide) (by decide) (by decide)
      (by decide) (by norm_num) (by norm_num)).1 7 (by decide)⟩

/-- C9 counterexample: the manual crop sliders each range over
`[0, 50]` percent, so left = right = 50 is a reachable configuration
whose delivered crop has left + right = 1, violating the strict
invariant `left + right < 1`. -/
theorem C9_crop_counterexample :
    ¬ ((Ambilight.sliderCrop 50 0 50 0).1 + (Ambilight.sliderCrop 50 0 50 0).2.2.1 < 1) := by
  norm_num [Ambilight.sliderCrop]

theorem half_crop_lt_one (w x : ℚ) (hw : 0 < w) (hx : 0 < x) :
    (w - x) / 2 / w + (w - x) / 2 / w < 1 := by
  rw [div_div, div_add_div_same, div_lt_one (by positivity)]
  linarith

/-- C9 amended: the aspect-ratio presets of `calc_region` always
deliver crops with left + right < 1 and top + bottom < 1 (for positive
monitor dimensions and positive aspect ratios), while the manual crop
sliders, clamped to `[0, 50]` percent per side, only guarantee the
non-strict bounds left + right ≤ 1 and top + bottom ≤ 1. -/
theorem C9_crop_amended (mw mh aw ah : ℚ) (l t r b : ℕ)
    (hmw : 0 < mw) (hmh : 0 < mh) (haw : 0 < aw) (hah : 0 < ah)
    (hl : l ≤ 50) (ht : t ≤ 50) (hr : r ≤ 50) (hb : b ≤ 50) :
    ((Ambilight.calc_region mw mh none).1
        + (Ambilight.calc_region mw mh none).2.2.1 < 1 ∧
      (Ambilight.calc_region mw mh none).2.1
        + (Ambilight.calc_region mw mh none).2.2.2 < 1) ∧
    ((Ambilight.calc_region mw mh (some (aw, ah))).1
        + (Ambilight.calc_region mw mh (some (aw, ah))).2.2.1 < 1 ∧
      (Ambilight.calc_region mw mh (some (aw, ah))).2.1
        + (Ambilight.calc_region mw mh (some (aw, ah))).2.2.2 < 1) ∧
    ((Ambilight.sliderCrop l t r b).1 + (Ambilight.sliderCrop l t r b).2.2.1 ≤ 1 ∧
      (Ambilight.sliderCrop l t r b).2.1 + (Ambilight.sliderCrop l t r b).2.2.2 ≤ 1) := by
  refine ⟨by norm_num [Ambilight.calc_region], ?_, ?_⟩
  · have htarget : 0 < aw / ah := div_pos haw hah
    simp only [Ambilight.calc_region]
    split_ifs with habs hlt
    · norm_num
    · constructor
      · exact half_crop_lt_one mw (mh * (aw / ah)) hmw (by positivity)
      · norm_num
    · constructor
      · norm_num
      · exact half_crop_lt_one mh (mw / (aw / ah)) hmh (by positivity)
  · unfold Ambilight.sliderCrop
    constructor
    · have hlq : (l : ℚ) ≤ 50 := by exact_mod_cast hl
      have hrq : (r : ℚ) ≤ 50 := by exact_mod_cast hr
      rw [div_add_div_same, div_le_one (by norm_num)]
      linarith
    · have htq : (t : ℚ) ≤ 50 := by exact_mod_cast ht
      have hbq : (b : ℚ) ≤ 50 := by exact_mod_cast hb
      rw [div_add_div_same, div_le_one (by norm_num)]
      linarith

/-- Witness for the amended C9 at a concrete configuration. -/
theorem C9_crop_amended_witness :
    (0 : ℚ) < 1920 ∧ (0 : ℚ) < 1080 ∧ (0 : ℚ) < 21 ∧ (0 : ℚ) < 9 ∧
    (50 : ℕ) ≤ 50 ∧ (10 : ℕ) ≤ 50 ∧ (50 : ℕ) ≤ 50 ∧ (0 : ℕ) ≤ 50 ∧
    ((Ambilight.sliderCrop 50 10 50 0).1 + (Ambilight.sliderCrop 50 10 50 0).2.2.1 ≤ 1 ∧
      (Ambilight.sliderCrop 50 10 50 0).2.1 + (Ambilight.sliderCrop 50 10 50 0).2.2.2 ≤ 1) :=
  ⟨by norm_num, by norm_num, by norm_num, by norm_num, by decide, by decide, by decide,
    by decide,
    (C9_crop_amended 1920 1080 21 9 50 10 50 0 (by norm_num) (by norm_num) (by norm_num)
      (by norm_num) (by decide) (by decide) (by decide) (by decide)).2.2⟩

namespace Ambilight

theorem gzc_length (img : NpArr) (n : ℕ) (ax : Bool) (bri : ℚ) :
    (get_zone_colors img n ax bri).length = n := by
  simp only [get_zone_colors]
  by_cases h1 : img.rows * img.cols = 0
  · rw [if_pos h1]
    simp
  · rw [if_neg h1]
    by_cases h2 : (if ax then img.cols else img.rows) / n < 1
    · rw [if_pos h2]
      simp
    · rw [if_neg h2]
      simp

theorem pyTrunc_toNat_le_255 (q : ℚ) (h : q ≤ 255) : (pyTrunc q).toNat ≤ 255 := by
  unfold pyTrunc
  split_ifs with hneg
  · have hf : 0 ≤ Int.floor (-q) := Int.floor_nonneg.mpr (by linarith)
    omega
  · have hfle : Int.floor q ≤ 255 := by
      have h2 := Int.floor_le_floor (α := ℚ) h
      simpa using h2
    omega

/-- A double sum of values in `[0, 255]` divided by the number of
terms lies in `[0, 255]` (with the empty mean equal to 0). -/
theorem double_sum_div_bounds (a b : ℕ) (f : ℕ → ℕ → ℚ)
    (h0 : ∀ i j, 0 ≤ f i j) (h255 : ∀ i j, f i j ≤ 255) :
    0 ≤ (∑ i ∈ Finset.range a, ∑ j ∈ Finset.range b, f i j) / ((a * b : ℕ) : ℚ) ∧
      (∑ i ∈ Finset.range a, ∑ j ∈ Finset.range b, f i j) / ((a * b : ℕ) : ℚ) ≤ 255 := by
  have hS0 : 0 ≤ ∑ i ∈ Finset.range a, ∑ j ∈ Finset.range b, f i j :=
    Finset.sum_nonneg fun i _ => Finset.sum_nonneg fun j _ => h0 i j
  have hS : (∑ i ∈ Finset.range a, ∑ j ∈ Finset.range b, f i j)
      ≤ 255 * ((a * b : ℕ) : ℚ) := by
    have hinner : ∀ i, (∑ j ∈ Finset.range b, f i j) ≤ (b : ℚ) * 255 := by
      intro i
      have h1 := Finset.sum_le_card_nsmul (Finset.range b) (f i) 255 (fun j _ => h255 i j)
      simpa [nsmul_eq_mul] using h1
    have h2 := Finset.sum_le_sum (fun i (_ : i ∈ Finset.range a) => hinner i)
    have h3 : (∑ _i ∈ Finset.range a, ((b : ℚ) * 255)) = (a : ℚ) * ((b : ℚ) * 255) := by
      rw [Finset.sum_const]
      simp [nsmul_eq_mul]
    rw [h3] at h2
    calc (∑ i ∈ Finset.range a, ∑ j ∈ Finset.range b, f i j)
        ≤ (a : ℚ) * ((b : ℚ) * 255) := h2
      _ = 255 * ((a * b : ℕ) : ℚ) := by push_cast; ring
  rcases Nat.eq_zero_or_pos (a * b) with hab | hab
  · rw [hab]
    simp
  · have hq : (0 : ℚ) < ((a * b : ℕ) : ℚ) := by exact_mod_cast hab
    exact ⟨div_nonneg hS0 hq.le, (div_le_iff₀ hq).mpr (by linarith)⟩

/-- The degenerate whole-strip mean, scaled by a brightness in
`[0, 1]`, stays within one byte per channel. -/
theorem scale_npMean_isByte (img : NpArr) (hpix : ∀ i j, isByte (img.pix i j))
    (r0 r1 c0 c1 : ℕ) (bri : ℚ) (hb0 : 0 ≤ bri) (hb1 : bri ≤ 1) :
    isByte (scaleColor (npMean img r0 r1 c0 c1) bri) := by
  have hm1 := double_sum_div_bounds (r1 - r0) (c1 - c0)
    (fun i j => ((img.pix (r0 + i) (c0 + j)).1 : ℚ)) (fun i j => by positivity)
    (fun i j => by
      show ((img.pix (r0 + i) (c0 + j)).1 : ℚ) ≤ 255
      exact_mod_cast (hpix (r0 + i) (c0 + j)).1)
  have hm2 := double_sum_div_bounds (r1 - r0) (c1 - c0)
    (fun i j => ((img.pix (r0 + i) (c0 + j)).2.1 : ℚ)) (fun i j => by positivity)
    (fun i j => by
      show ((img.pix (r0 + i) (c0 + j)).2.1 : ℚ) ≤ 255
      exact_mod_cast (hpix (r0 + i) (c0 + j)).2.1)
  have hm3 := double_sum_div_bounds (r1 - r0) (c1 - c0)
    (fun i j => ((img.pix (r0 + i) (c0 + j)).2.2 : ℚ)) (fun i j => by positivity)
    (fun i j => by
      show ((img.pix (r0 + i) (c0 + j)).2.2 : ℚ) ≤ 255
      exact_mod_cast (hpix (r0 + i) (c0 + j)).2.2)
  unfold scaleColor npMean npSum
  refine ⟨?_, ?_, ?_⟩
  · exact pyTrunc_toNat_le_255 _ (by nlinarith [hm1.1, hm1.2])
  · exact pyTrunc_toNat_le_255 _ (by nlinarith [hm2.1, hm2.2])
  · exact pyTrunc_toNat_le_255 _ (by nlinarith [hm3.1, hm3.2])

/-- Every color returned by `get_zone_colors` is byte-valued, in all
three branches. -/
theorem gzc_isByte (img : NpArr) (hpix : ∀ i j, isByte (img.pix i j)) (n : ℕ)
    (ax : Bool) (bri : ℚ) (hb0 : 0 ≤ bri) (hb1 : bri ≤ 1) :
    ∀ c ∈ get_zone_colors img n ax bri, isByte c := by
  intro c hc
  simp only [get_zone_colors] at hc
  by_cases h1 : img.rows * img.cols = 0
  · rw [if_pos h1] at hc
    rw [List.eq_of_mem_replicate hc]
    exact ⟨by norm_num, by norm_num, by norm_num⟩
  · rw [if_neg h1] at hc
    by_cases h2 : (if ax then img.cols else img.rows) / n < 1
    · rw [if_pos h2] at hc
      rw [List.eq_of_mem_replicate hc]
      exact scale_npMean_isByte img hpix _ _ _ _ bri hb0 hb1
    · rw [if_neg h2] at hc
      simp only [List.mem_map] at hc
      obtain ⟨k, hk, rfl⟩ := hc
      exact ⟨min_le_left _ _, min_le_left _ _, min_le_left _ _⟩

end Ambilight

/-- C6: for every frame with positive dimensions and byte-valued
pixels, every valid CropRegion, every edge-depth fraction and every
brightness in `[0, 1]`, the Zone Sampler returns exactly 36 entries
with every channel in `[0, 255]`, including the degenerate empty-strip
and short-strip branches. -/
theorem C6_sampler_bounds (frame : Ambilight.NpArr) (crop : ℚ × ℚ × ℚ × ℚ)
    (edge_pct bri : ℚ)
    (hpix : ∀ i j, isByte (frame.pix i j))
    (hrows : 0 < frame.rows) (hcols : 0 < frame.cols)
    (hcl : 0 ≤ crop.1) (hct : 0 ≤ crop.2.1) (hcr : 0 ≤ crop.2.2.1) (hcb : 0 ≤ crop.2.2.2)
    (hlr : crop.1 + crop.2.2.1 < 1) (htb : crop.2.1 + crop.2.2.2 < 1)
    (hb0 : 0 ≤ bri) (hb1 : bri ≤ 1) :
    (Ambilight.sample_from_frame frame crop edge_pct bri).length = 36 ∧
    ∀ c ∈ Ambilight.sample_from_frame frame crop edge_pct bri, isByte c := by
  constructor
  · simp only [Ambilight.sample_from_frame]
    rw [List.length_append, List.length_append, List.length_reverse,
      Ambilight.gzc_length, Ambilight.gzc_length, Ambilight.gzc_length]
  · intro c hc
    simp only [Ambilight.sample_from_frame] at hc
    rw [List.mem_append, List.mem_append, List.mem_reverse] at hc
    rcases hc with (hc | hc) | hc
    · refine Ambilight.gzc_isByte _ ?_ _ _ _ hb0 hb1 _ hc
      intro i j
      exact hpix _ _
    · refine Ambilight.gzc_isByte _ ?_ _ _ _ hb0 hb1 _ hc
      intro i j
      exact hpix _ _
    · refine Ambilight.gzc_isByte _ ?_ _ _ _ hb0 hb1 _ hc
      intro i j
      exact hpix _ _

/-- Witness for C6 at a concrete frame, crop and brightness. -/
theorem C6_sampler_bounds_witness :
    (∀ i j, isByte (sampleFrame.pix i j)) ∧
    0 < sampleFrame.rows ∧ 0 < sampleFrame.cols ∧
    ((0 : ℚ) ≤ 0 ∧ (0 : ℚ) + 0 < 1) ∧ ((0 : ℚ) ≤ 1 / 2 ∧ (1 / 2 : ℚ) ≤ 1) ∧
    ((Ambilight.sample_from_frame sampleFrame (0, 0, 0, 0) (1 / 10) (1 / 2)).length = 36 ∧
      ∀ c ∈ Ambilight.sample_from_frame sampleFrame (0, 0, 0, 0) (1 / 10) (1 / 2),
        isByte c) :=
  ⟨fun i j => ⟨by norm_num [sampleFrame], by norm_num [sampleFrame],
      by norm_num [sampleFrame]⟩, by norm_num [sampleFrame], by norm_num [sampleFrame],
    ⟨by norm_num, by norm_num⟩, ⟨by norm_num, by norm_num⟩,
    C6_sampler_bounds sampleFrame (0, 0, 0, 0) (1 / 10) (1 / 2)
      (fun i j => ⟨by norm_num [sampleFrame], by norm_num [sampleFrame],
        by norm_num [sampleFrame]⟩)
      (by norm_num [sampleFrame]) (by norm_num [sampleFrame])
      (by norm_num) (by norm_num) (by norm_num) (by norm_num) (by norm_num) (by norm_num)
      (by norm_num) (by norm_num)⟩
